import Mathlib

/-!
Shallow embedding of the core of `1000+line.py` (Mast SEO + Admin Telegram
Bot): the SQLite-backed recipient store (`DB`), the in-memory flood limiter
(`Flood`), the moderation gate (`guard`) and the broadcast engine
(`broadcast_cmd`).

Timestamps are `Int` (the source uses `int(time.time())`).  The `users`
table is an association list `(user_id, UserRow)` in row (insertion) order;
SQLite `UPDATE ... WHERE user_id=?` becomes a map over the list touching the
matching key, and `INSERT ... ON CONFLICT(user_id)` branches on key lookup.
The transport send capability is a parameter `send : Int → Bool`
(`false` = the `except` branch of a delivery attempt).
-/

/-- One row of the `users` table (see `CREATE TABLE users` in `_init`). -/
structure UserRow where
  first_name : String
  username : String
  joined_at : Int
  last_seen : Int
  is_banned : Bool
  ban_reason : Option String
deriving Repr, DecidableEq

/-- The `users` table, in row order: association list keyed by `user_id`. -/
abbrev UsersTable := List (Int × UserRow)

/-- `SELECT ... FROM users WHERE user_id=?`: first row with the given key. -/
def lookupUser (users : UsersTable) (uid : Int) : Option UserRow :=
  (List.find? (fun p => p.1 == uid) users).map Prod.snd

/-- `UPDATE users SET ... WHERE user_id=?`: rewrite every row with the key. -/
def updateUser (users : UsersTable) (uid : Int) (f : UserRow → UserRow) :
    UsersTable :=
  users.map (fun p => if p.1 == uid then (p.1, f p.2) else p)

/-- `DB.upsert_user`: `INSERT INTO users(user_id, first_name, username,
joined_at, last_seen) VALUES(?,?,?,?,?) ON CONFLICT(user_id) DO UPDATE SET
first_name=excluded.first_name, username=excluded.username,
last_seen=excluded.last_seen` with `ts = int(time.time())`. -/
def upsert_user (users : UsersTable) (uid : Int) (first_name username : String)
    (ts : Int) : UsersTable :=
  match lookupUser users uid with
  | some _ =>
      updateUser users uid (fun r =>
        { r with first_name := first_name, username := username,
                 last_seen := ts })
  | none =>
      users ++ [(uid, { first_name := first_name, username := username,
                        joined_at := ts, last_seen := ts,
                        is_banned := false, ban_reason := none })]

/-- `DB.set_last_seen`: `UPDATE users SET last_seen=? WHERE user_id=?`. -/
def set_last_seen (users : UsersTable) (uid : Int) (ts : Int) : UsersTable :=
  updateUser users uid (fun r => { r with last_seen := ts })

/-- `DB.is_banned`: `SELECT is_banned, ban_reason FROM users WHERE
user_id=?`; `(False, None)` when no row, else `(row[0] == 1, row[1])`. -/
def is_banned (users : UsersTable) (uid : Int) : Bool × Option String :=
  match lookupUser users uid with
  | none => (false, none)
  | some r => (r.is_banned, r.ban_reason)

/-- `DB.ban`: `INSERT INTO users(user_id, first_name, username, joined_at,
last_seen, is_banned, ban_reason) VALUES(?, "", "", ts, ts, 1, reason)
ON CONFLICT(user_id) DO UPDATE SET is_banned=1,
ban_reason=excluded.ban_reason`. -/
def ban (users : UsersTable) (uid : Int) (reason : String) (ts : Int) :
    UsersTable :=
  match lookupUser users uid with
  | some _ =>
      updateUser users uid (fun r =>
        { r with is_banned := true, ban_reason := some reason })
  | none =>
      users ++ [(uid, { first_name := "", username := "",
                        joined_at := ts, last_seen := ts,
                        is_banned := true, ban_reason := some reason })]

/-- `DB.unban`: `UPDATE users SET is_banned=0, ban_reason=NULL WHERE
user_id=?`. -/
def unban (users : UsersTable) (uid : Int) : UsersTable :=
  updateUser users uid (fun r =>
    { r with is_banned := false, ban_reason := none })

/-- `DB.stats`: `(COUNT(*), COUNT(*) WHERE is_banned=1)`. -/
def stats (users : UsersTable) : Nat × Nat :=
  (users.length, (users.filter (fun p => p.2.is_banned)).length)

/-- `DB.user_ids_active`: `SELECT user_id FROM users WHERE is_banned=0`,
in row order. -/
def user_ids_active (users : UsersTable) : List Int :=
  (users.filter (fun p => !p.2.is_banned)).map Prod.fst

/-- One row of the `broadcasts` table. `id` is `AUTOINCREMENT`. -/
structure BroadcastRow where
  id : Int
  admin_id : Int
  message : String
  created_at : Int
  sent_ok : Int
  sent_fail : Int
deriving Repr, DecidableEq

/-- The `broadcasts` table, in row order. -/
abbrev BroadcastsTable := List BroadcastRow

/-- The next `AUTOINCREMENT` rowid: one more than the largest id used
(rows are never deleted, so that is the largest id present, 0 if none). -/
def next_bid (bs : BroadcastsTable) : Int :=
  (bs.foldl (fun m r => max m r.id) 0) + 1

/-- `DB.log_broadcast`: `INSERT INTO broadcasts(admin_id, message,
created_at) VALUES(?,?,?)` with `ts = int(time.time())`; `sent_ok` and
`sent_fail` take their column default 0; returns `cur.lastrowid`. -/
def log_broadcast (bs : BroadcastsTable) (admin_id : Int) (message : String)
    (ts : Int) : Int × BroadcastsTable :=
  let bid := next_bid bs
  (bid, bs ++ [{ id := bid, admin_id := admin_id, message := message,
                 created_at := ts, sent_ok := 0, sent_fail := 0 }])

/-- `DB.update_broadcast_result`: `UPDATE broadcasts SET sent_ok=?,
sent_fail=? WHERE id=?`. -/
def update_broadcast_result (bs : BroadcastsTable) (bid : Int)
    (ok fail : Int) : BroadcastsTable :=
  bs.map (fun r => if r.id == bid then
    { r with sent_ok := ok, sent_fail := fail } else r)

/-- `SELECT * FROM broadcasts WHERE id=?`. -/
def lookupBroadcast (bs : BroadcastsTable) (bid : Int) : Option BroadcastRow :=
  List.find? (fun r => r.id == bid) bs

/-- The `Flood` dataclass: `window: int = 8`, `limit: int = 7`,
`bucket: Dict[int, List[int]]` (empty after `__post_init__`). -/
structure Flood where
  window : Int := 8
  limit : Nat := 7
  bucket : List (Int × List Int) := []
deriving Repr, DecidableEq

/-- `self.bucket.get(uid, [])`. -/
def Flood.getBucket (f : Flood) (uid : Int) : List Int :=
  ((List.find? (fun p => p.1 == uid) f.bucket).map Prod.snd).getD []

/-- `self.bucket[uid] = lst`: Python dict assignment (keys unique;
replace the entry if present, else append). -/
def Flood.setBucket (f : Flood) (uid : Int) (lst : List Int) : Flood :=
  if (List.find? (fun p => p.1 == uid) f.bucket).isSome then
    { f with bucket :=
        f.bucket.map (fun p => if p.1 == uid then (p.1, lst) else p) }
  else
    { f with bucket := f.bucket ++ [(uid, lst)] }

/-- `Flood.hit`: with `now = int(time.time())`, prune the recipient's
window to entries with `now - t <= self.window`, append `now`, store it
back, and report whether `len(lst) > self.limit`. -/
def Flood.hit (f : Flood) (uid : Int) (now : Int) : Bool × Flood :=
  let lst := f.getBucket uid
  let lst := lst.filter (fun t => decide (now - t ≤ f.window))
  let lst := lst ++ [now]
  let f := f.setBucket uid lst
  (decide (lst.length > f.limit), f)

/-- `update.effective_user`, as far as `guard` reads it. -/
structure EffUser where
  id : Int
  first_name : String
  username : String
deriving Repr, DecidableEq

/-- `is_admin`: `bool(u and OWNER_ID and u.id == OWNER_ID)` — true iff
there is an effective user, the configured owner id is non-zero, and the
user's id equals it. -/
def is_admin (u : Option EffUser) (owner_id : Int) : Bool :=
  match u with
  | none => false
  | some u => owner_id != 0 && u.id == owner_id

/-- The observable outcome of `guard`: `True` (allowed); `False` after the
banned reply, which carries the stored reason; `False` after the flood
reply. -/
inductive GuardResult where
  | Allowed
  | Banned (reason : Option String)
  | Throttled
deriving Repr, DecidableEq

/-- `guard`: no effective user → allowed untouched; otherwise upsert the
user, touch `last_seen`, check `db.is_banned` (banned → rejected before
the flood guard runs); then, unless the user is the admin, consult
`FLOOD.hit`.  Returns the outcome with the updated `users` table and
flood state. -/
def Bot.guard (u : Option EffUser) (owner_id : Int) (now : Int)
    (users : UsersTable) (fl : Flood) :
    GuardResult × UsersTable × Flood :=
  match u with
  | none => (GuardResult.Allowed, users, fl)
  | some u =>
    let users := upsert_user users u.id u.first_name u.username now
    let users := set_last_seen users u.id now
    let br := is_banned users u.id
    if br.1 then
      (GuardResult.Banned br.2, users, fl)
    else if !(is_admin (some u) owner_id) then
      let hr := fl.hit u.id now
      if hr.1 then (GuardResult.Throttled, users, hr.2)
      else (GuardResult.Allowed, users, hr.2)
    else
      (GuardResult.Allowed, users, fl)

/-- Outcome of `broadcast_cmd` past the guard/admin gates. -/
inductive BroadcastOutcome where
  | emptyMessage
  | noRecipients
  | done (bid : Int) (ok : Nat) (fail : Nat)
deriving Repr, DecidableEq

/-- The delivery loop of `broadcast_cmd`: for each uid in order, try
`bot.send_message` (modelled by `send uid`); success increments `ok`,
any exception increments `fail`, and the loop continues.  Also returns
the list of attempted recipients in order. -/
def deliverLoop (send : Int → Bool) (ids : List Int) (ok fail : Nat)
    (attempts : List Int) : Nat × Nat × List Int :=
  match ids with
  | [] => (ok, fail, attempts)
  | uid :: rest =>
      if send uid then deliverLoop send rest (ok + 1) fail (attempts ++ [uid])
      else deliverLoop send rest ok (fail + 1) (attempts ++ [uid])

/-- Python's `str.strip()`: drop leading and trailing whitespace
(whitespace modelled by `Char.isWhitespace`). -/
def pyStrip (s : String) : String :=
  ⟨((s.data.dropWhile Char.isWhitespace).reverse.dropWhile
      Char.isWhitespace).reverse⟩

/-- `broadcast_cmd` after its guard and admin checks: `msg =
" ".join(context.args).strip()` is taken already joined (`args_msg`) and
stripped here; empty message and empty active-recipient list are rejected
with no table change; otherwise the record is logged, every active uid is
attempted once in order, and the final counters are written back.
Returns the outcome, the final `broadcasts` table, and the attempted
recipients in order. -/
def broadcast_cmd (admin_id : Int) (args_msg : String) (users : UsersTable)
    (bs : BroadcastsTable) (send : Int → Bool) (now : Int) :
    BroadcastOutcome × BroadcastsTable × List Int :=
  let msg := pyStrip args_msg
  if msg.isEmpty then (BroadcastOutcome.emptyMessage, bs, [])
  else
    let user_ids := user_ids_active users
    if user_ids.isEmpty then (BroadcastOutcome.noRecipients, bs, [])
    else
      let lb := log_broadcast bs admin_id msg now
      let r := deliverLoop send user_ids 0 0 []
      let bs2 := update_broadcast_result lb.2 lb.1 r.1 r.2.1
      (BroadcastOutcome.done lb.1 r.1 r.2.1, bs2, r.2.2)

/-- `floodSeq`: a sequence of `Flood.hit` calls for one id at the given
times, collecting the returned booleans. -/
def floodSeq (f : Flood) (uid : Int) (times : List Int) :
    List Bool × Flood :=
  match times with
  | [] => ([], f)
  | t :: rest =>
      let r := f.hit uid t
      let s := floodSeq r.2 uid rest
      (r.1 :: s.1, s.2)

/-- "ban_reason is non-null only if is_banned": the §3 invariant, over
every row of the users table. -/
def banReasonInv (users : UsersTable) : Prop :=
  ∀ p ∈ users, p.2.ban_reason ≠ none → p.2.is_banned = true

/-- Deciding the §3 invariant on a concrete table. -/
instance banReasonInv.decidable (users : UsersTable) :
    Decidable (banReasonInv users) :=
  inferInstanceAs
    (Decidable (∀ p ∈ users, p.2.ban_reason ≠ none → p.2.is_banned = true))

/-- The users table right after `guard` has run `db.upsert_user` and
`db.set_last_seen` for the effective user. -/
def guardUsers (users : UsersTable) (u : EffUser) (now : Int) : UsersTable :=
  set_last_seen (upsert_user users u.id u.first_name u.username now) u.id now

section Helpers

/-- A key absent from the table matches no row. -/
theorem lookupUser_none_no_key {users : UsersTable} {uid : Int}
    (h : lookupUser users uid = none) :
    ∀ p ∈ users, (p.1 == uid) = false := by
  intro p hp
  unfold lookupUser at h
  rw [Option.map_eq_none'] at h
  rw [List.find?_eq_none] at h
  simpa using h p hp

/-- `UPDATE ... WHERE user_id=?` on an absent key is a no-op. -/
theorem updateUser_absent {users : UsersTable} {uid : Int}
    (f : UserRow → UserRow) (h : lookupUser users uid = none) :
    updateUser users uid f = users := by
  unfold updateUser
  have h' := lookupUser_none_no_key h
  calc users.map (fun p => if p.1 == uid then (p.1, f p.2) else p)
      = users.map id := by
        apply List.map_congr_left
        intro p hp
        simp [h' p hp]
    _ = users := List.map_id users

/-- `updateUser` unfolded one row at a time. -/
theorem updateUser_cons (p : Int × UserRow) (rest : UsersTable) (uid : Int)
    (f : UserRow → UserRow) :
    updateUser (p :: rest) uid f
      = (if p.1 == uid then (p.1, f p.2) else p) :: updateUser rest uid f :=
  rfl

/-- `lookupUser` unfolded one row at a time. -/
theorem lookupUser_cons (p : Int × UserRow) (rest : UsersTable) (uid : Int) :
    lookupUser (p :: rest) uid
      = if p.1 == uid then some p.2 else lookupUser rest uid := by
  unfold lookupUser
  rw [List.find?_cons]
  cases h : (p.1 == uid) <;> simp [h]

/-- Looking up the updated key returns the transformed row. -/
theorem lookupUser_updateUser_self (users : UsersTable) (uid : Int)
    (f : UserRow → UserRow) :
    lookupUser (updateUser users uid f) uid
      = (lookupUser users uid).map f := by
  induction users with
  | nil => rfl
  | cons p rest ih =>
      rw [updateUser_cons]
      cases h : (p.1 == uid)
      · simp only [h, if_neg Bool.false_ne_true]
        rw [lookupUser_cons, lookupUser_cons, h]
        simpa using ih
      · simp only [h, if_pos rfl]
        rw [lookupUser_cons, lookupUser_cons]
        simp [h]

/-- Two updates of the same key compose. -/
theorem updateUser_updateUser (users : UsersTable) (uid : Int)
    (f g : UserRow → UserRow) :
    updateUser (updateUser users uid f) uid g
      = updateUser users uid (g ∘ f) := by
  unfold updateUser
  rw [List.map_map]
  apply List.map_congr_left
  intro p _
  by_cases h : p.1 = uid
  · simp [h]
  · simp [h]

/-- Updating a key preserves the key column. -/
theorem updateUser_keys (users : UsersTable) (uid : Int)
    (f : UserRow → UserRow) :
    (updateUser users uid f).map Prod.fst = users.map Prod.fst := by
  unfold updateUser
  rw [List.map_map]
  apply List.map_congr_left
  intro p _
  by_cases h : p.1 = uid
  · simp [h]
  · simp [h]

/-- Rows of `updateUser` come from rows of the table, rewritten only when
the key matches. -/
theorem mem_updateUser {users : UsersTable} {uid : Int}
    {f : UserRow → UserRow} {p : Int × UserRow}
    (hp : p ∈ updateUser users uid f) :
    ∃ q ∈ users, p = (if q.1 == uid then (q.1, f q.2) else q) := by
  unfold updateUser at hp
  rcases List.mem_map.1 hp with ⟨q, hq, rfl⟩
  exact ⟨q, hq, rfl⟩

/-- Appending a fresh key makes it found, after the old rows. -/
theorem lookupUser_append_fresh {users : UsersTable} {uid : Int}
    (r : UserRow) (h : lookupUser users uid = none) :
    lookupUser (users ++ [(uid, r)]) uid = some r := by
  unfold lookupUser at h ⊢
  rw [Option.map_eq_none'] at h
  rw [List.find?_append, h]
  simp

/-- `upsert_user` on a present key is the three-field row update. -/
theorem upsert_user_present (users : UsersTable) (uid : Int)
    (fn un : String) (ts : Int) {r : UserRow}
    (h : lookupUser users uid = some r) :
    upsert_user users uid fn un ts
      = updateUser users uid
          (fun q => { q with first_name := fn, username := un,
                             last_seen := ts }) := by
  unfold upsert_user
  rw [h]

/-- `setBucket` leaves the window width unchanged. -/
theorem setBucket_window (f : Flood) (uid : Int) (lst : List Int) :
    (f.setBucket uid lst).window = f.window := by
  unfold Flood.setBucket
  split <;> rfl

/-- `setBucket` leaves the limit unchanged. -/
theorem setBucket_limit (f : Flood) (uid : Int) (lst : List Int) :
    (f.setBucket uid lst).limit = f.limit := by
  unfold Flood.setBucket
  split <;> rfl

/-- Replacing a present key in the python-dict bucket is found by `find?`. -/
theorem find?_map_set (l : List (Int × List Int)) (uid : Int)
    (lst : List Int)
    (hs : (List.find? (fun p => p.1 == uid) l).isSome = true) :
    List.find? (fun p => p.1 == uid)
        (l.map (fun p => if p.1 == uid then (p.1, lst) else p))
      = some (uid, lst) := by
  induction l with
  | nil => simp at hs
  | cons p rest ih =>
      cases hk : (p.1 == uid)
      · rw [List.map_cons, if_neg (by simp [hk]), List.find?_cons, hk]
        apply ih
        rw [List.find?_cons, hk] at hs
        exact hs
      · have hk' : p.1 = uid := by simpa using hk
        rw [List.map_cons, if_pos hk, List.find?_cons]
        simp [hk']

/-- Reading back the window just stored for an id. -/
theorem getBucket_setBucket (f : Flood) (uid : Int) (lst : List Int) :
    (f.setBucket uid lst).getBucket uid = lst := by
  unfold Flood.setBucket
  cases hs : List.find? (fun p => p.1 == uid) f.bucket with
  | none =>
      rw [if_neg (by simp [hs])]
      unfold Flood.getBucket
      simp only
      rw [List.find?_append, hs]
      simp
  | some q =>
      rw [if_pos (by simp [hs])]
      unfold Flood.getBucket
      simp only
      rw [find?_map_set f.bucket uid lst (by simp [hs])]
      rfl

/-- The boolean `Flood.hit` returns, written out. -/
theorem hit_fst (f : Flood) (uid now : Int) :
    (f.hit uid now).1 = decide
      ((((f.getBucket uid).filter (fun t => decide (now - t ≤ f.window)))
        ++ [now]).length > f.limit) := by
  have h : (f.hit uid now).1 = decide
      ((((f.getBucket uid).filter (fun t => decide (now - t ≤ f.window)))
        ++ [now]).length
       > (f.setBucket uid
           (((f.getBucket uid).filter
             (fun t => decide (now - t ≤ f.window))) ++ [now])).limit) := rfl
  rw [h, setBucket_limit]

/-- The state `Flood.hit` leaves behind, written out. -/
theorem hit_snd (f : Flood) (uid now : Int) :
    (f.hit uid now).2 = f.setBucket uid
      (((f.getBucket uid).filter (fun t => decide (now - t ≤ f.window)))
        ++ [now]) := rfl

/-- Runs of `Flood.hit` whose call times stay inside one window never
prune: the stored window after the run is the accumulated call history,
and the k-th call (1-based) reports `history-so-far > limit`. -/
theorem floodSeq_no_prune (uid : Int) (times : List Int) :
    ∀ (f : Flood) (acc : List Int), f.getBucket uid = acc →
      List.Pairwise (fun a b => a ≤ b ∧ b - a ≤ f.window) (acc ++ times) →
      (floodSeq f uid times).1
        = (List.range times.length).map
            (fun i => decide (acc.length + i + 1 > f.limit))
      ∧ (floodSeq f uid times).2.getBucket uid = acc ++ times
      ∧ (floodSeq f uid times).2.window = f.window
      ∧ (floodSeq f uid times).2.limit = f.limit := by
  induction times with
  | nil =>
      intro f acc hacc _
      exact ⟨rfl, by simpa using hacc, rfl, rfl⟩
  | cons t rest ih =>
      intro f acc hacc hp
      have hkeep : ∀ a ∈ acc, (decide (t - a ≤ f.window)) = true := by
        intro a ha
        have hr := (List.pairwise_append.1 hp).2.2 a ha t
          (List.mem_cons_self t rest)
        simpa using hr.2
      have hfilt : (f.getBucket uid).filter
          (fun a => decide (t - a ≤ f.window)) = acc := by
        rw [hacc]
        exact List.filter_eq_self.2 hkeep
      have hbucket : (f.hit uid t).2.getBucket uid = acc ++ [t] := by
        rw [hit_snd, getBucket_setBucket, hfilt]
      have hwin : (f.hit uid t).2.window = f.window := by
        rw [hit_snd, setBucket_window]
      have hlim : (f.hit uid t).2.limit = f.limit := by
        rw [hit_snd, setBucket_limit]
      have hp' : List.Pairwise
          (fun a b => a ≤ b ∧ b - a ≤ (f.hit uid t).2.window)
          ((acc ++ [t]) ++ rest) := by
        rw [hwin, List.append_assoc]
        simpa using hp
      have IH := ih (f.hit uid t).2 (acc ++ [t]) hbucket hp'
      refine ⟨?_, ?_, ?_, ?_⟩
      · show (f.hit uid t).1 :: (floodSeq (f.hit uid t).2 uid rest).1 = _
        rw [IH.1, hlim, hit_fst, hfilt, List.length_cons,
            List.range_succ_eq_map, List.map_cons, List.map_map]
        congr 1
        · rw [decide_eq_decide]
          simp [List.length_append]
        · apply List.map_congr_left
          intro i _
          simp only [Function.comp_apply]
          rw [decide_eq_decide]
          rw [List.length_append]
          simp only [List.length_cons, List.length_nil]
          omega
      · show (floodSeq (f.hit uid t).2 uid rest).2.getBucket uid = _
        rw [IH.2.1, List.append_assoc]
        rfl
      · show (floodSeq (f.hit uid t).2 uid rest).2.window = f.window
        rw [IH.2.2.1, hwin]
      · show (floodSeq (f.hit uid t).2 uid rest).2.limit = f.limit
        rw [IH.2.2.2, hlim]

/-- The delivery loop splits the recipient list into counted successes
and counted failures and attempts every recipient once, in order. -/
theorem deliverLoop_spec (send : Int → Bool) (ids : List Int) :
    ∀ (ok fail : Nat) (att : List Int),
      deliverLoop send ids ok fail att
        = (ok + (ids.filter send).length,
           fail + (ids.filter (fun i => !send i)).length,
           att ++ ids) := by
  induction ids with
  | nil =>
      intro ok fail att
      simp [deliverLoop]
  | cons uid rest ih =>
      intro ok fail att
      cases hs : send uid
      · rw [deliverLoop, if_neg (by simp [hs]), ih]
        simp [List.filter_cons, hs]
        omega
      · rw [deliverLoop, if_pos (by simp [hs]), ih]
        simp [List.filter_cons, hs]
        omega

/-- Successes and failures of one pass over the list add up to its
length. -/
theorem length_filter_add_length_filter_not (p : Int → Bool)
    (l : List Int) :
    (l.filter p).length + (l.filter (fun i => !p i)).length = l.length := by
  induction l with
  | nil => rfl
  | cons a l ih =>
      cases h : p a <;> simp [List.filter_cons, h] <;> omega

/-- The accumulator of `next_bid` dominates its seed. -/
theorem foldl_max_init_le (l : List BroadcastRow) (init : Int) :
    init ≤ l.foldl (fun m r => max m r.id) init := by
  induction l generalizing init with
  | nil => exact le_refl init
  | cons a l ih =>
      exact le_trans (le_max_left init a.id) (ih (max init a.id))

/-- Every id in the broadcasts table is dominated by the `next_bid`
accumulator. -/
theorem mem_id_le_foldl_max (l : List BroadcastRow) (init : Int) :
    ∀ r ∈ l, r.id ≤ l.foldl (fun m r => max m r.id) init := by
  induction l generalizing init with
  | nil => simp
  | cons a l ih =>
      intro r hr
      rcases List.mem_cons.1 hr with rfl | hr
      · exact le_trans (le_max_right init r.id) (foldl_max_init_le l _)
      · exact ih (max init a.id) r hr

/-- `next_bid` is fresh: no existing row carries it. -/
theorem next_bid_fresh (bs : BroadcastsTable) :
    ∀ r ∈ bs, (r.id == next_bid bs) = false := by
  intro r hr
  have h := mem_id_le_foldl_max bs 0 r hr
  have : r.id ≠ next_bid bs := by
    unfold next_bid
    omega
  simpa using this

/-- Finalizing the freshly appended record rewrites only that record. -/
theorem update_broadcast_result_append_fresh (bs : BroadcastsTable)
    (row : BroadcastRow) (ok fail : Int)
    (h : ∀ r ∈ bs, (r.id == row.id) = false) :
    update_broadcast_result (bs ++ [row]) row.id ok fail
      = bs ++ [{ row with sent_ok := ok, sent_fail := fail }] := by
  unfold update_broadcast_result
  rw [List.map_append]
  congr 1
  · calc bs.map (fun r => if r.id == row.id then
          { r with sent_ok := ok, sent_fail := fail } else r)
        = bs.map id := by
          apply List.map_congr_left
          intro r hr
          simp [h r hr]
      _ = bs := List.map_id bs
  · simp

end Helpers

/-- C9: when the update carries no effective user, `guard` returns `True`
(allowed) immediately: no upsert, no last-seen touch, no ban check, and no
flood-window mutation — users table and flood state are returned
untouched. -/
theorem C9_guard_no_effective_user (owner_id now : Int) (users : UsersTable)
    (fl : Flood) :
    Bot.guard none owner_id now users fl = (GuardResult.Allowed, users, fl) :=
  rfl

/-- C8: for an id with no row, `is_banned` returns `(False, None)`
(unknown is not banned), and `set_last_seen` (touchLastSeen) and `unban`
are no-ops on the table rather than errors. -/
theorem C8_unknown_id_sentinels (users : UsersTable) (uid ts : Int)
    (h : lookupUser users uid = none) :
    is_banned users uid = (false, none)
    ∧ set_last_seen users uid ts = users
    ∧ unban users uid = users := by
  refine ⟨?_, updateUser_absent _ h, updateUser_absent _ h⟩
  unfold is_banned
  rw [h]

/-- Witness for C8 at a concrete empty table. -/
theorem C8_unknown_id_sentinels_witness :
    is_banned [] 42 = (false, none)
    ∧ set_last_seen [] 42 5 = []
    ∧ unban [] 42 = [] :=
  C8_unknown_id_sentinels [] 42 5 rfl

/-- C5: `ban` on an absent id appends a row with empty name fields,
`is_banned=true` and the given reason (and makes the id found); on a
present id it rewrites the row to `is_banned=true` with the new reason,
overwriting any prior one; `unban` after a `ban` clears `is_banned` and
`ban_reason` of that row while changing nothing else of it (in particular
`joined_at`) and deleting no row. -/
theorem C5_ban_unban (users : UsersTable) (uid : Int)
    (reason reason' : String) (ts : Int) :
    (lookupUser users uid = none →
        ban users uid reason ts
          = users ++ [(uid, ⟨"", "", ts, ts, true, some reason⟩)]
        ∧ lookupUser (ban users uid reason ts) uid
          = some ⟨"", "", ts, ts, true, some reason⟩)
    ∧ (∀ r, lookupUser users uid = some r →
        lookupUser (ban users uid reason' ts) uid
          = some { r with is_banned := true, ban_reason := some reason' })
    ∧ lookupUser (unban (ban users uid reason ts) uid) uid
        = (lookupUser (ban users uid reason ts) uid).map
            (fun r => { r with is_banned := false, ban_reason := none })
    ∧ (unban (ban users uid reason ts) uid).length
        = (ban users uid reason ts).length := by
  refine ⟨fun h => ⟨?_, ?_⟩, fun r h => ?_, ?_, ?_⟩
  · unfold ban
    rw [h]
  · unfold ban
    rw [h]
    exact lookupUser_append_fresh _ h
  · unfold ban
    rw [h]
    rw [lookupUser_updateUser_self, h]
    rfl
  · unfold unban
    exact lookupUser_updateUser_self _ _ _
  · unfold unban updateUser
    exact List.length_map _ _

/-- Witness for C5 at a concrete absent id. -/
theorem C5_ban_unban_witness :
    ban [] 42 "spam" 10 = [(42, ⟨"", "", 10, 10, true, some "spam"⟩)]
    ∧ lookupUser (ban [] 42 "spam" 10) 42
        = some ⟨"", "", 10, 10, true, some "spam"⟩ :=
  (C5_ban_unban [] 42 "spam" "other" 10).1 rfl

/-- C6: `upsert_user` on an id already present rewrites only
`first_name`, `username` and `last_seen` of that id's row (its
`joined_at`, `is_banned`, `ban_reason` stay), adds or removes no row,
leaves rows of other ids untouched, and a repeated call with the same
names collapses to the later call (idempotent up to the advance of
`last_seen`). -/
theorem C6_upsert_existing (users : UsersTable) (uid : Int)
    (fn un : String) (ts ts' : Int) (r : UserRow)
    (h : lookupUser users uid = some r) :
    upsert_user users uid fn un ts
      = updateUser users uid
          (fun q => { q with first_name := fn, username := un,
                             last_seen := ts })
    ∧ lookupUser (upsert_user users uid fn un ts) uid
      = some { r with first_name := fn, username := un, last_seen := ts }
    ∧ (upsert_user users uid fn un ts).map Prod.fst = users.map Prod.fst
    ∧ (∀ p ∈ users, p.1 ≠ uid → p ∈ upsert_user users uid fn un ts)
    ∧ upsert_user (upsert_user users uid fn un ts) uid fn un ts'
      = upsert_user users uid fn un ts' := by
  have c1 := upsert_user_present users uid fn un ts h
  have c2 : lookupUser (upsert_user users uid fn un ts) uid
      = some { r with first_name := fn, username := un, last_seen := ts } := by
    rw [c1, lookupUser_updateUser_self, h]
    rfl
  refine ⟨c1, c2, ?_, ?_, ?_⟩
  · rw [c1]
    exact updateUser_keys _ _ _
  · intro p hp hne
    rw [c1]
    unfold updateUser
    have hb : (p.1 == uid) = false := by simpa using hne
    have := List.mem_map_of_mem
      (fun p : Int × UserRow => if p.1 == uid then
        (p.1, { p.2 with first_name := fn, username := un,
                          last_seen := ts }) else p) hp
    simpa [hb] using this
  · rw [upsert_user_present _ uid fn un ts' c2, c1, updateUser_updateUser,
        upsert_user_present users uid fn un ts' h]
    congr 1

/-- Witness for C6 at a concrete one-row table. -/
theorem C6_upsert_existing_witness :
    lookupUser
        (upsert_user [(7, ⟨"old", "oldh", 1, 2, true, some "why"⟩)]
          7 "new" "newh" 5) 7
      = some ⟨"new", "newh", 1, 5, true, some "why"⟩
    ∧ upsert_user
        (upsert_user [(7, ⟨"old", "oldh", 1, 2, true, some "why"⟩)]
          7 "new" "newh" 5) 7 "new" "newh" 9
      = upsert_user [(7, ⟨"old", "oldh", 1, 2, true, some "why"⟩)]
          7 "new" "newh" 9 := by
  have h := C6_upsert_existing
    [(7, ⟨"old", "oldh", 1, 2, true, some "why"⟩)] 7 "new" "newh" 5 9
    ⟨"old", "oldh", 1, 2, true, some "why"⟩ rfl
  exact ⟨h.2.1, h.2.2.2.2⟩

/-- C7: the invariant "ban_reason is non-null only if is_banned" is
preserved by `upsert_user`, `set_last_seen`, `ban` and `unban`, and
`unban` clears `is_banned` and `ban_reason` of the target row together in
the same operation. -/
theorem C7_ban_reason_invariant (users : UsersTable) (uid : Int)
    (fn un reason : String) (ts : Int) (h : banReasonInv users) :
    banReasonInv (upsert_user users uid fn un ts)
    ∧ banReasonInv (set_last_seen users uid ts)
    ∧ banReasonInv (ban users uid reason ts)
    ∧ banReasonInv (unban users uid)
    ∧ ∀ p ∈ unban users uid, p.1 = uid →
        p.2.is_banned = false ∧ p.2.ban_reason = none := by
  have key : ∀ (f : UserRow → UserRow),
      (∀ q : UserRow, (q.ban_reason ≠ none → q.is_banned = true) →
        ((f q).ban_reason ≠ none → (f q).is_banned = true)) →
      banReasonInv (updateUser users uid f) := by
    intro f hf p hp
    rcases mem_updateUser hp with ⟨q, hq, rfl⟩
    by_cases hk : (q.1 == uid) = true
    · rw [if_pos hk]
      exact hf q.2 (h q hq)
    · rw [if_neg hk]
      exact h q hq
  have inv_append : ∀ row : UserRow,
      (row.ban_reason ≠ none → row.is_banned = true) →
      banReasonInv (users ++ [(uid, row)]) := by
    intro row hrow p hp
    rcases List.mem_append.1 hp with hp | hp
    · exact h p hp
    · rcases List.mem_singleton.1 hp with rfl
      exact hrow
  refine ⟨?_, ?_, ?_, ?_, ?_⟩
  · unfold upsert_user
    cases hlk : lookupUser users uid
    · exact inv_append _ (by simp)
    · exact key _ (fun q hq => by simpa using hq)
  · exact key _ (fun q hq => by simpa using hq)
  · unfold ban
    cases hlk : lookupUser users uid
    · exact inv_append _ (by simp)
    · exact key _ (fun q _ _ => rfl)
  · exact key _ (fun q _ hq => by simp at hq)
  · intro p hp hkey
    rcases mem_updateUser hp with ⟨q, hq, rfl⟩
    by_cases hk : (q.1 == uid) = true
    · rw [if_pos hk]
      exact ⟨rfl, rfl⟩
    · rw [if_neg hk] at hkey ⊢
      exact absurd (by simpa using hkey) (by simpa using hk)

/-- Witness for C7 at a concrete one-row banned table. -/
theorem C7_ban_reason_invariant_witness :
    banReasonInv (upsert_user [(1, ⟨"a", "b", 0, 1, true, some "x"⟩)]
        1 "c" "d" 5)
    ∧ banReasonInv (set_last_seen [(1, ⟨"a", "b", 0, 1, true, some "x"⟩)] 1 5)
    ∧ banReasonInv (ban [(1, ⟨"a", "b", 0, 1, true, some "x"⟩)] 1 "r" 5)
    ∧ banReasonInv (unban [(1, ⟨"a", "b", 0, 1, true, some "x"⟩)] 1)
    ∧ ∀ p ∈ unban [(1, ⟨"a", "b", 0, 1, true, some "x"⟩)] 1, p.1 = 1 →
        p.2.is_banned = false ∧ p.2.ban_reason = none :=
  C7_ban_reason_invariant [(1, ⟨"a", "b", 0, 1, true, some "x"⟩)]
    1 "c" "d" "r" 5 (by decide)

/-- C10: after `Flood.hit` for `uid` at `now`, the stored window is
exactly the previously-stored timestamps `t` with `now - t ≤ window`,
with `now` appended; hence it is non-empty and every retained entry lies
within the window; and the returned boolean is true iff the length of
this updated window exceeds `limit`. -/
theorem C10_hit_invariant (f : Flood) (uid now : Int) (h : 0 ≤ f.window) :
    (f.hit uid now).2.getBucket uid
      = (f.getBucket uid).filter (fun t => decide (now - t ≤ f.window))
          ++ [now]
    ∧ (f.hit uid now).2.getBucket uid ≠ []
    ∧ (∀ t ∈ (f.hit uid now).2.getBucket uid, now - t ≤ f.window)
    ∧ ((f.hit uid now).1 = true ↔
        ((f.getBucket uid).filter (fun t => decide (now - t ≤ f.window))
          ++ [now]).length > f.limit) := by
  have hb : (f.hit uid now).2.getBucket uid
      = (f.getBucket uid).filter (fun t => decide (now - t ≤ f.window))
          ++ [now] := by
    rw [hit_snd, getBucket_setBucket]
  refine ⟨hb, ?_, ?_, ?_⟩
  · rw [hb]
    simp
  · intro t ht
    rw [hb] at ht
    rcases List.mem_append.1 ht with ht | ht
    · simpa using List.of_mem_filter ht
    · rcases List.mem_singleton.1 ht with rfl
      simpa using h
  · rw [hit_fst]
    exact decide_eq_true_iff

/-- Witness for C10 on a concrete one-entry window. -/
theorem C10_hit_invariant_witness :
    ((⟨8, 7, [(1, [0, 100])]⟩ : Flood).hit 1 103).2.getBucket 1
      = [100, 103]
    ∧ ((⟨8, 7, [(1, [0, 100])]⟩ : Flood).hit 1 103).2.getBucket 1 ≠ []
    ∧ (∀ t ∈ ((⟨8, 7, [(1, [0, 100])]⟩ : Flood).hit 1 103).2.getBucket 1,
        (103 : Int) - t ≤ 8)
    ∧ (((⟨8, 7, [(1, [0, 100])]⟩ : Flood).hit 1 103).1 = true ↔
        (([0, 100].filter (fun t => decide ((103 : Int) - t ≤ 8)))
          ++ [(103 : Int)]).length > 7) :=
  C10_hit_invariant ⟨8, 7, [(1, [0, 100])]⟩ 1 103 (by decide)

/-- C3: with `window=8`, `limit=7` and a fresh window for `uid`, 8 calls
at nondecreasing times within one second return false for calls 1–7 and
true first on call 8; any run of further calls still inside the window
of all earlier ones returns true every time; and a call made more than
`window` seconds after all earlier calls returns false. -/
theorem C3_flood_scenario (f : Flood) (uid : Int) (ts more : List Int)
    (t' : Int)
    (hw : f.window = 8) (hl : f.limit = 7)
    (h0 : f.getBucket uid = [])
    (hlen : ts.length = 8)
    (hp1 : List.Pairwise (fun a b => a ≤ b ∧ b - a ≤ 1) ts)
    (hp2 : List.Pairwise (fun a b => a ≤ b ∧ b - a ≤ 8) (ts ++ more)) :
    (floodSeq f uid ts).1
      = [false, false, false, false, false, false, false, true]
    ∧ (∀ b ∈ (floodSeq (floodSeq f uid ts).2 uid more).1, b = true)
    ∧ ((∀ t ∈ ts ++ more, t' - t > 8) →
        ((floodSeq (floodSeq f uid ts).2 uid more).2.hit uid t').1
          = false) := by
  have hp1' : List.Pairwise (fun a b => a ≤ b ∧ b - a ≤ f.window)
      (([] : List Int) ++ ts) := by
    rw [List.nil_append, hw]
    exact hp1.imp (fun hab => ⟨hab.1, by omega⟩)
  have s1 := floodSeq_no_prune uid ts f [] h0 hp1'
  have hp2' : List.Pairwise
      (fun a b => a ≤ b ∧ b - a ≤ (floodSeq f uid ts).2.window)
      (ts ++ more) := by
    rw [s1.2.2.1, hw]
    exact hp2
  have s2 := floodSeq_no_prune uid more (floodSeq f uid ts).2 ts s1.2.1 hp2'
  refine ⟨?_, ?_, ?_⟩
  · rw [s1.1, hlen, hl]
    rfl
  · intro b hb
    rw [s2.1] at hb
    rcases List.mem_map.1 hb with ⟨i, _, rfl⟩
    rw [s1.2.2.2, hl, hlen]
    simp only [decide_eq_true_eq]
    omega
  · intro hfar
    rw [hit_fst, s2.2.1, s2.2.2.1, s1.2.2.1, hw, s2.2.2.2, s1.2.2.2, hl]
    have hnil : (ts ++ more).filter (fun t => decide (t' - t ≤ (8 : Int)))
        = [] := by
      rw [List.filter_eq_nil_iff]
      intro a ha
      have := hfar a ha
      simp only [decide_eq_true_eq]
      omega
    rw [hnil]
    rfl

/-- Witness for C3: a fresh flood guard, 8 calls in one second, two more
calls inside the window, then one far outside it. -/
theorem C3_flood_scenario_witness :
    (floodSeq ⟨8, 7, []⟩ 1 [0, 0, 0, 0, 0, 0, 0, 1]).1
      = [false, false, false, false, false, false, false, true]
    ∧ (∀ b ∈ (floodSeq (floodSeq ⟨8, 7, []⟩ 1 [0, 0, 0, 0, 0, 0, 0, 1]).2
          1 [2, 3]).1, b = true)
    ∧ ((floodSeq (floodSeq ⟨8, 7, []⟩ 1 [0, 0, 0, 0, 0, 0, 0, 1]).2
          1 [2, 3]).2.hit 1 100).1 = false := by
  have h := C3_flood_scenario ⟨8, 7, []⟩ 1 [0, 0, 0, 0, 0, 0, 0, 1] [2, 3]
    100 rfl rfl rfl (by decide) (by decide) (by decide)
  exact ⟨h.1, h.2.1, h.2.2 (by decide)⟩

/-- C1: `guard` with an effective user always performs the upsert and
the last-seen touch first (whatever the outcome, the returned table is
the upserted-and-touched one); if the identity is then banned — admin or
not — the result is `Banned(reason)` and the flood state is returned
unmutated (no budget consumed); if not banned and not the operator, the
flood guard is consulted and its mutated state returned, throttling iff
it reports over-limit; if not banned and the operator, the flood guard
is never consulted and the result is `Allowed` with the flood state
unmutated. -/
theorem C1_guard_order (u : EffUser) (owner_id now : Int)
    (users : UsersTable) (fl : Flood) :
    (Bot.guard (some u) owner_id now users fl).2.1 = guardUsers users u now
    ∧ ((is_banned (guardUsers users u now) u.id).1 = true →
        Bot.guard (some u) owner_id now users fl
          = (GuardResult.Banned (is_banned (guardUsers users u now) u.id).2,
             guardUsers users u now, fl))
    ∧ ((is_banned (guardUsers users u now) u.id).1 = false →
        is_admin (some u) owner_id = false →
        Bot.guard (some u) owner_id now users fl
          = ((if (fl.hit u.id now).1 then GuardResult.Throttled
              else GuardResult.Allowed),
             guardUsers users u now, (fl.hit u.id now).2))
    ∧ ((is_banned (guardUsers users u now) u.id).1 = false →
        is_admin (some u) owner_id = true →
        Bot.guard (some u) owner_id now users fl
          = (GuardResult.Allowed, guardUsers users u now, fl)) := by
  have hg : Bot.guard (some u) owner_id now users fl
      = (if (is_banned (guardUsers users u now) u.id).1 then
           (GuardResult.Banned (is_banned (guardUsers users u now) u.id).2,
            guardUsers users u now, fl)
         else if !(is_admin (some u) owner_id) then
           (if (fl.hit u.id now).1 then
              (GuardResult.Throttled, guardUsers users u now,
               (fl.hit u.id now).2)
            else (GuardResult.Allowed, guardUsers users u now,
                  (fl.hit u.id now).2))
         else (GuardResult.Allowed, guardUsers users u now, fl)) := rfl
  refine ⟨?_, ?_, ?_, ?_⟩
  · rw [hg]
    by_cases hb : (is_banned (guardUsers users u now) u.id).1 = true
    · rw [if_pos hb]
    · rw [if_neg hb]
      by_cases ha : (!(is_admin (some u) owner_id)) = true
      · rw [if_pos ha]
        by_cases hf : (fl.hit u.id now).1 = true
        · rw [if_pos hf]
        · rw [if_neg hf]
      · rw [if_neg ha]
  · intro hb
    rw [hg, if_pos hb]
  · intro hb ha
    rw [hg, if_neg (by simp [hb]), if_pos (by simp [ha])]
    by_cases hf : (fl.hit u.id now).1 = true
    · rw [if_pos hf, if_pos hf]
    · rw [if_neg hf, if_neg hf]
  · intro hb ha
    rw [hg, if_neg (by simp [hb]), if_neg (by simp [ha])]

/-- Witness for C1: a banned operator is rejected with the stored
reason and an untouched flood state; a non-banned operator is allowed
without the flood guard being consulted; a non-banned ordinary user goes
through the flood guard. -/
theorem C1_guard_order_witness :
    Bot.guard (some ⟨5, "a", "b"⟩) 5 10
        [(5, ⟨"x", "y", 1, 1, true, some "r"⟩)] ⟨8, 7, []⟩
      = (GuardResult.Banned (some "r"),
         [(5, ⟨"a", "b", 1, 10, true, some "r"⟩)], ⟨8, 7, []⟩)
    ∧ Bot.guard (some ⟨5, "a", "b"⟩) 5 10
        [(5, ⟨"x", "y", 1, 1, false, none⟩)] ⟨8, 7, []⟩
      = (GuardResult.Allowed,
         [(5, ⟨"a", "b", 1, 10, false, none⟩)], ⟨8, 7, []⟩)
    ∧ Bot.guard (some ⟨6, "a", "b"⟩) 5 10
        [(6, ⟨"x", "y", 1, 1, false, none⟩)] ⟨8, 7, []⟩
      = (GuardResult.Allowed,
         [(6, ⟨"a", "b", 1, 10, false, none⟩)], ⟨8, 7, [(6, [10])]⟩) := by
  refine ⟨?_, ?_, ?_⟩
  · exact (C1_guard_order ⟨5, "a", "b"⟩ 5 10
      [(5, ⟨"x", "y", 1, 1, true, some "r"⟩)] ⟨8, 7, []⟩).2.1 (by decide)
  · exact (C1_guard_order ⟨5, "a", "b"⟩ 5 10
      [(5, ⟨"x", "y", 1, 1, false, none⟩)] ⟨8, 7, []⟩).2.2.2
      (by decide) (by decide)
  · exact (C1_guard_order ⟨6, "a", "b"⟩ 5 10
      [(6, ⟨"x", "y", 1, 1, false, none⟩)] ⟨8, 7, []⟩).2.2.1
      (by decide) (by decide)

/-- C2: with a non-empty trimmed message and a non-empty eligible
snapshot, the record is created at start with zero counters and the
fresh id; every snapshot recipient is attempted exactly once in
snapshot order (failures never abort the run); the outcome reports
`ok = N - K` and `fail = K`; the final table is the starting one plus
that single record finalized with those counts; and `ok + fail` is the
snapshot size captured at start. -/
theorem C2_broadcast_accounting (admin_id : Int) (args_msg : String)
    (users : UsersTable) (bs : BroadcastsTable) (send : Int → Bool)
    (now : Int)
    (hmsg : pyStrip args_msg ≠ "")
    (hids : user_ids_active users ≠ []) :
    log_broadcast bs admin_id (pyStrip args_msg) now
      = (next_bid bs,
         bs ++ [⟨next_bid bs, admin_id, pyStrip args_msg, now, 0, 0⟩])
    ∧ (broadcast_cmd admin_id args_msg users bs send now).2.2
        = user_ids_active users
    ∧ (broadcast_cmd admin_id args_msg users bs send now).1
        = BroadcastOutcome.done (next_bid bs)
            ((user_ids_active users).filter send).length
            ((user_ids_active users).filter (fun i => !send i)).length
    ∧ (broadcast_cmd admin_id args_msg users bs send now).2.1
        = bs ++ [⟨next_bid bs, admin_id, pyStrip args_msg, now,
                  (((user_ids_active users).filter send).length : Int),
                  (((user_ids_active users).filter
                      (fun i => !send i)).length : Int)⟩]
    ∧ ((user_ids_active users).filter send).length
        = (user_ids_active users).length
          - ((user_ids_active users).filter (fun i => !send i)).length
    ∧ ((user_ids_active users).filter send).length
        + ((user_ids_active users).filter (fun i => !send i)).length
        = (user_ids_active users).length := by
  have hmsg' : (pyStrip args_msg).isEmpty = false := by
    rw [← Bool.not_eq_true, String.isEmpty_iff]
    exact hmsg
  have hids' : (user_ids_active users).isEmpty = false := by
    rw [← Bool.not_eq_true, List.isEmpty_iff]
    exact hids
  have hsum := length_filter_add_length_filter_not send (user_ids_active users)
  have hrun : broadcast_cmd admin_id args_msg users bs send now
      = (BroadcastOutcome.done (next_bid bs)
           ((user_ids_active users).filter send).length
           ((user_ids_active users).filter (fun i => !send i)).length,
         update_broadcast_result
           (bs ++ [⟨next_bid bs, admin_id, pyStrip args_msg, now, 0, 0⟩])
           (next_bid bs)
           (((user_ids_active users).filter send).length : Int)
           (((user_ids_active users).filter (fun i => !send i)).length : Int),
         user_ids_active users) := by
    simp only [broadcast_cmd, hmsg', hids', Bool.false_eq_true, if_false,
      log_broadcast, deliverLoop_spec, Nat.zero_add, List.nil_append]
  refine ⟨rfl, ?_, ?_, ?_, ?_, hsum⟩
  · rw [hrun]
  · rw [hrun]
  · rw [hrun]
    exact update_broadcast_result_append_fresh bs
      ⟨next_bid bs, admin_id, pyStrip args_msg, now, 0, 0⟩ _ _
      (next_bid_fresh bs)
  · omega

/-- Witness for C2: three recipients, one banned, one delivery made to
fail: the run attempts [1, 3] in order and finalizes ok=1, fail=1. -/
theorem C2_broadcast_accounting_witness :
    (broadcast_cmd 9 "  hello "
        [(1, ⟨"", "", 0, 0, false, none⟩), (2, ⟨"", "", 0, 0, true, some "r"⟩),
         (3, ⟨"", "", 0, 0, false, none⟩)] [] (fun i => i != 3) 50).2.2
      = [1, 3]
    ∧ (broadcast_cmd 9 "  hello "
        [(1, ⟨"", "", 0, 0, false, none⟩), (2, ⟨"", "", 0, 0, true, some "r"⟩),
         (3, ⟨"", "", 0, 0, false, none⟩)] [] (fun i => i != 3) 50).1
      = BroadcastOutcome.done 1 1 1
    ∧ (broadcast_cmd 9 "  hello "
        [(1, ⟨"", "", 0, 0, false, none⟩), (2, ⟨"", "", 0, 0, true, some "r"⟩),
         (3, ⟨"", "", 0, 0, false, none⟩)] [] (fun i => i != 3) 50).2.1
      = [⟨1, 9, "hello", 50, 1, 1⟩] := by
  have h := C2_broadcast_accounting 9 "  hello "
    [(1, ⟨"", "", 0, 0, false, none⟩), (2, ⟨"", "", 0, 0, true, some "r"⟩),
     (3, ⟨"", "", 0, 0, false, none⟩)] [] (fun i => i != 3) 50
    (by decide) (by decide)
  exact ⟨h.2.1, h.2.2.1, h.2.2.2.1⟩

/-- C4: an all-whitespace message is rejected before any durable write
(no record, no delivery attempt, broadcasts table unchanged); an empty
eligible snapshot is likewise rejected with no record created. -/
theorem C4_broadcast_preconditions (admin_id : Int) (args_msg : String)
    (users : UsersTable) (bs : BroadcastsTable) (send : Int → Bool)
    (now : Int) :
    (pyStrip args_msg = "" →
        broadcast_cmd admin_id args_msg users bs send now
          = (BroadcastOutcome.emptyMessage, bs, []))
    ∧ (user_ids_active users = [] →
        broadcast_cmd admin_id args_msg users bs send now
          = ((if pyStrip args_msg = "" then BroadcastOutcome.emptyMessage
              else BroadcastOutcome.noRecipients), bs, [])) := by
  constructor
  · intro h
    simp only [broadcast_cmd]
    rw [if_pos (by simp [String.isEmpty_iff, h])]
  · intro h
    by_cases hm : pyStrip args_msg = ""
    · rw [if_pos hm]
      simp only [broadcast_cmd]
      rw [if_pos (by simp [String.isEmpty_iff, hm])]
    · rw [if_neg hm]
      simp only [broadcast_cmd]
      rw [if_neg (by simp [String.isEmpty_iff, hm]),
          if_pos (by simp [List.isEmpty_iff, h])]

/-- Witness for C4: a whitespace-only message and an empty snapshot are
both rejected with the table unchanged. -/
theorem C4_broadcast_preconditions_witness :
    broadcast_cmd 9 "   " [(1, ⟨"", "", 0, 0, false, none⟩)]
        [⟨1, 9, "old", 0, 2, 0⟩] (fun i => i != 3) 50
      = (BroadcastOutcome.emptyMessage, [⟨1, 9, "old", 0, 2, 0⟩], [])
    ∧ broadcast_cmd 9 "hi" [] [⟨1, 9, "old", 0, 2, 0⟩]
        (fun i => i != 3) 50
      = (BroadcastOutcome.noRecipients, [⟨1, 9, "old", 0, 2, 0⟩], []) := by
  refine ⟨?_, ?_⟩
  · exact (C4_broadcast_preconditions 9 "   "
      [(1, ⟨"", "", 0, 0, false, none⟩)] [⟨1, 9, "old", 0, 2, 0⟩]
      (fun i => i != 3) 50).1 (by decide)
  · have h := (C4_broadcast_preconditions 9 "hi" [] [⟨1, 9, "old", 0, 2, 0⟩]
      (fun i => i != 3) 50).2 rfl
    rw [if_neg (by decide)] at h
    exact h
